import Mathlib

/-!
Verification of the `civic_ingest` document-ingestion pipeline.

Shallow embedding of the Python sources:
  `src/ingestion/python/src/civic_ingest/models.py`
  `src/ingestion/python/src/civic_ingest/sfbos_extractor.py`
  `src/ingestion/python/src/civic_ingest/cli.py`

Files are modelled as their byte content (`List Nat`, each entry `< 256`);
the filesystem, HTTP responses and the PDF-introspection capability are
passed explicitly as values; machine integers are `Nat` with explicit
`% 2 ^ 32` where 32-bit wraparound matters (SHA-256).
-/

namespace CivicIngest

/-! ### Basic string/number helpers -/

/-- Decimal digit character for `d % 10` (models Python's integer formatting
digit by digit). -/
def digitChar (d : Nat) : Char := Char.ofNat (48 + d % 10)

/-- Decimal digits with explicit fuel (`fuel ≥ 1` suffices whenever
`fuel > n / 10`, which the wrapper below guarantees). -/
def natCharsAux : Nat → Nat → List Char
  | 0, _ => []
  | fuel + 1, n =>
      if n < 10 then [digitChar n]
      else natCharsAux fuel (n / 10) ++ [digitChar (n % 10)]

/-- Decimal digits of a natural number, most significant first. -/
def natChars (n : Nat) : List Char := natCharsAux (n + 1) n

/-- Decimal string of a natural number (models Python `str(n)` for `n ≥ 0`). -/
def natStr (n : Nat) : String := String.mk (natChars n)

/-- Decimal string of an integer (models Python `str(n)`). -/
def intStr (n : Int) : String :=
  if n < 0 then "-" ++ natStr n.natAbs else natStr n.natAbs

/-- Left-pad the decimal form of `n` with zeros to width `w`
(models `%02d`-style formatting). -/
def padNat (w n : Nat) : String :=
  String.mk (List.replicate (w - (natChars n).length) '0') ++ natStr n

/-- Lowercase hexadecimal digit for `d % 16`. -/
def hexChar (d : Nat) : Char :=
  if d % 16 < 10 then Char.ofNat (48 + d % 16) else Char.ofNat (87 + d % 16)

/-- Two lowercase hex digits of a byte (models `hexdigest` formatting). -/
def byteHex (b : Nat) : List Char := [hexChar (b / 16), hexChar b]

/-- Lowercase hex string of a byte list. -/
def bytesToHex (bs : List Nat) : String := String.mk (bs.flatMap byteHex)

/-- ASCII letter class, models the regex class `[A-Za-z]`. -/
def isAlphaCh (c : Char) : Bool :=
  ('A' ≤ c && c ≤ 'Z') || ('a' ≤ c && c ≤ 'z')

/-- Whitespace class: ASCII fragment of Python's `\s`
(the Unicode-only whitespace code points are not modelled; no claim
depends on them). -/
def isWsCh (c : Char) : Bool :=
  c == ' ' || c == '\t' || c == '\n' || c == '\r' || c == '\x0b' || c == '\x0c'

/-- Digit class: ASCII fragment of Python's `\d`
(Unicode decimal digits are not modelled; no claim depends on them). -/
def isDigitCh (c : Char) : Bool := '0' ≤ c && c ≤ '9'

/-- Lowercasing, models Python `str.lower()` (ASCII; the Unicode case
mappings are not modelled, no claim depends on them). -/
def strToLower (s : String) : String := String.mk (s.data.map Char.toLower)

/-- Suffix test over the character lists. -/
def strEndsWith (s suffix : String) : Bool := suffix.data.isSuffixOf s.data

/-- Starts-with test over the character lists. -/
def strStartsWith (s pre : String) : Bool := pre.data.isPrefixOf s.data

/-! ### SHA-256 (model of `hashlib.sha256`)

A faithful FIPS 180-4 SHA-256 over byte lists, with the incremental
`update`/`hexdigest` interface that `_sha256_file` uses.  Words are `Nat`
reduced mod `2 ^ 32`. -/

/-- Truncate to a 32-bit word. -/
def w32 (n : Nat) : Nat := n % 4294967296

/-- Rotate a 32-bit word (given as a `Nat` below `2 ^ 32`) right by `k` bits. -/
def rotr (k x : Nat) : Nat := x / 2 ^ k + x % 2 ^ k * 2 ^ (32 - k)

/-- The 64 round constants of SHA-256, written in decimal. -/
def shaK : List Nat :=
  [1116352408, 1899447441, 3049323471, 3921009573, 961987163,
   1508970993, 2453635748, 2870763221, 3624381080, 310598401,
   607225278, 1426881987, 1925078388, 2162078206, 2614888103,
   3248222580, 3835390401, 4022224774, 264347078, 604807628,
   770255983, 1249150122, 1555081692, 1996064986, 2554220882,
   2821834349, 2952996808, 3210313671, 3336571891, 3584528711,
   113926993, 338241895, 666307205, 773529912, 1294757372,
   1396182291, 1695183700, 1986661051, 2177026350, 2456956037,
   2730485921, 2820302411, 3259730800, 3345764771, 3516065817,
   3600352804, 4094571909, 275423344, 430227734, 506948616,
   659060556, 883997877, 958139571, 1322822218, 1537002063,
   1747873779, 1955562222, 2024104815, 2227730452, 2361852424,
   2428436474, 2756734187, 3204031479, 3329325298]

/-- The eight initial hash registers of SHA-256, written in decimal. -/
def shaH0 : List Nat :=
  [1779033703, 3144134277, 1013904242, 2773480762, 1359893119,
   2600822924, 528734635, 1541459225]

/-- Small sigma 0. -/
def ssig0 (x : Nat) : Nat := (rotr 7 x) ^^^ (rotr 18 x) ^^^ (x / 2 ^ 3)

/-- Small sigma 1. -/
def ssig1 (x : Nat) : Nat := (rotr 17 x) ^^^ (rotr 19 x) ^^^ (x / 2 ^ 10)

/-- Big sigma 0. -/
def bsig0 (x : Nat) : Nat := (rotr 2 x) ^^^ (rotr 13 x) ^^^ (rotr 22 x)

/-- Big sigma 1. -/
def bsig1 (x : Nat) : Nat := (rotr 6 x) ^^^ (rotr 11 x) ^^^ (rotr 25 x)

/-- Big-endian 32-bit words from bytes (4 bytes per word). -/
def bytesToWords : List Nat → List Nat
  | b0 :: b1 :: b2 :: b3 :: rest =>
      (((b0 * 256 + b1) * 256 + b2) * 256 + b3) :: bytesToWords rest
  | _ => []

/-- Big-endian bytes of one 32-bit word. -/
def wordBytes (w : Nat) : List Nat :=
  [w / 2 ^ 24 % 256, w / 2 ^ 16 % 256, w / 2 ^ 8 % 256, w % 256]

/-- Big-endian bytes of a word list. -/
def wordsToBytes (ws : List Nat) : List Nat := ws.flatMap wordBytes

/-- Extend the 16-word message schedule by `fuel` further words. -/
def extendW : Nat → List Nat → List Nat
  | 0, w => w
  | fuel + 1, w =>
      let t := w.length
      let nw := w32 (ssig1 (w.getD (t - 2) 0) + w.getD (t - 7) 0 +
                     ssig0 (w.getD (t - 15) 0) + w.getD (t - 16) 0)
      extendW fuel (w ++ [nw])

/-- One SHA-256 round: state is `(a, b, c, d, e, f, g, h)`, input `(kᵢ + wᵢ)`
already summed. -/
def shaRound (st : Nat × Nat × Nat × Nat × Nat × Nat × Nat × Nat) (kw : Nat) :
    Nat × Nat × Nat × Nat × Nat × Nat × Nat × Nat :=
  let (a, b, c, d, e, f, g, h) := st
  let ch := (e &&& f) ^^^ ((4294967295 - e) &&& g)
  let maj := (a &&& b) ^^^ (a &&& c) ^^^ (b &&& c)
  let t1 := w32 (h + bsig1 e + ch + kw)
  let t2 := w32 (bsig0 a + maj)
  (w32 (t1 + t2), a, b, c, w32 (d + t1), e, f, g)

/-- SHA-256 compression function: 8-word state, one 64-byte block. -/
def compress (regs : List Nat) (block : List Nat) : List Nat :=
  let w := extendW 48 (bytesToWords block)
  let kw := (shaK.zip w).map fun p => p.1 + p.2
  let a0 := regs.getD 0 0
  let b0 := regs.getD 1 0
  let c0 := regs.getD 2 0
  let d0 := regs.getD 3 0
  let e0 := regs.getD 4 0
  let f0 := regs.getD 5 0
  let g0 := regs.getD 6 0
  let h0 := regs.getD 7 0
  let (a, b, c, d, e, f, g, h) := kw.foldl shaRound (a0, b0, c0, d0, e0, f0, g0, h0)
  [w32 (a0 + a), w32 (b0 + b), w32 (c0 + c), w32 (d0 + d),
   w32 (e0 + e), w32 (f0 + f), w32 (g0 + g), w32 (h0 + h)]

/-- Consume all complete 64-byte blocks from `data`, returning the new
register state and the (< 64 byte) leftover. -/
def procBlocks (regs : List Nat) (data : List Nat) : List Nat × List Nat :=
  if h : 64 ≤ data.length then
    procBlocks (compress regs (data.take 64)) (data.drop 64)
  else (regs, data)
  termination_by data.length
  decreasing_by simp only [List.length_drop]; omega

/-- SHA-256 padding for a message of `len` bytes: `0x80`, zeros, then the
bit length as 8 big-endian bytes. -/
def padTail (len : Nat) : List Nat :=
  let zeros := (64 - (len + 9) % 64) % 64
  0x80 :: List.replicate zeros 0 ++
    [len * 8 / 2 ^ 56 % 256, len * 8 / 2 ^ 48 % 256, len * 8 / 2 ^ 40 % 256,
     len * 8 / 2 ^ 32 % 256, len * 8 / 2 ^ 24 % 256, len * 8 / 2 ^ 16 % 256,
     len * 8 / 2 ^ 8 % 256, len * 8 % 256]

/-- Single-pass SHA-256 digest bytes of a whole message. -/
def sha256Bytes (msg : List Nat) : List Nat :=
  wordsToBytes (procBlocks shaH0 (msg ++ padTail msg.length)).1

/-- The spec side of claim C8: the lowercase hex SHA-256 digest of the
file's entire byte content hashed in a single pass. -/
def sha256_single_pass (content : List Nat) : String :=
  bytesToHex (sha256Bytes content)

/-- Incremental hashing state of a `hashlib.sha256()` object: registers,
buffered (< 64 byte) tail, and total bytes seen. -/
structure HashState where
  regs : List Nat
  buf : List Nat
  total : Nat
  deriving Repr, DecidableEq

/-- Model of `hashlib.sha256()`. -/
def HashState.init : HashState := ⟨shaH0, [], 0⟩

/-- Model of `h.update(bs)`: absorb bytes, compressing each complete 64-byte block. -/
def HashState.update (s : HashState) (bs : List Nat) : HashState :=
  let pr := procBlocks s.regs (s.buf ++ bs)
  ⟨pr.1, pr.2, s.total + bs.length⟩

/-- Model of `h.hexdigest()`: pad the buffered tail with the total length and emit
the lowercase hex digest. -/
def HashState.hexdigest (s : HashState) : String :=
  bytesToHex (wordsToBytes (procBlocks s.regs (s.buf ++ padTail s.total)).1)

/-- Successive `f.read(8192)` chunks of a file's content, until the read
returns empty (models `iter(lambda: f.read(8192), b"")`). -/
def readChunks (content : List Nat) : List (List Nat) :=
  if h : content = [] then []
  else content.take 8192 :: readChunks (content.drop 8192)
  termination_by content.length
  decreasing_by
    have hp : 0 < content.length := List.length_pos.mpr h
    simp only [List.length_drop]
    omega

/-- Model of `_sha256_file` from `sfbos_extractor.py`, with the file given as its
byte content: stream the file in 8192-byte chunks through `update`, then
take the hex digest. -/
def sha256_file (content : List Nat) : String :=
  ((readChunks content).foldl HashState.update HashState.init).hexdigest

/-! ### JSON values and compact serialization

Model of the JSON documents produced by pydantic's `model_dump_json`
(compact separators, strings escaped, non-ASCII kept verbatim).  The
mutually inductive list/field types keep recursion structural. -/

mutual

inductive Json where
  | str : String → Json
  | num : Int → Json
  | null : Json
  | arr : JsonList → Json
  | obj : JsonFields → Json

inductive JsonList where
  | nil : JsonList
  | cons : Json → JsonList → JsonList

inductive JsonFields where
  | fnil : JsonFields
  | fcons : String → Json → JsonFields → JsonFields

end

/-- Concatenate a list of strings. -/
def strConcat : List String → String
  | [] => ""
  | s :: tl => s ++ strConcat tl

/-- JSON escape of one character (serde_json-style: the two-character
escapes for quote, backslash and the common control characters, `\u00XX`
for the remaining control characters, everything else verbatim). -/
def escChar (c : Char) : String :=
  if c = '"' then "\\\""
  else if c = '\\' then "\\\\"
  else if c = '\n' then "\\n"
  else if c = '\r' then "\\r"
  else if c = '\t' then "\\t"
  else if c = '\x08' then "\\b"
  else if c = '\x0c' then "\\f"
  else if c.toNat < 32 then "\\u00" ++ String.mk (byteHex c.toNat)
  else String.singleton c

/-- A JSON string literal: quotes around the escaped characters. -/
def renderString (s : String) : String :=
  "\"" ++ strConcat (s.data.map escChar) ++ "\""

mutual

/-- Compact rendering of a JSON value (no added whitespace). -/
def Json.render : Json → String
  | .str s => renderString s
  | .num n => intStr n
  | .null => "null"
  | .arr l => "[" ++ JsonList.render l ++ "]"
  | .obj fs => "\x7b" ++ JsonFields.render fs ++ "\x7d"

/-- Comma-separated rendering of array elements. -/
def JsonList.render : JsonList → String
  | .nil => ""
  | .cons j .nil => Json.render j
  | .cons j (.cons j' tl) => Json.render j ++ "," ++ JsonList.render (.cons j' tl)

/-- Comma-separated rendering of object members. -/
def JsonFields.render : JsonFields → String
  | .fnil => ""
  | .fcons k v .fnil => renderString k ++ ":" ++ Json.render v
  | .fcons k v (.fcons k' v' tl) =>
      renderString k ++ ":" ++ Json.render v ++ "," ++ JsonFields.render (.fcons k' v' tl)

end

/-- Whether an object member list has a member named `key`. -/
def JsonFields.hasKey : JsonFields → String → Bool
  | .fnil, _ => false
  | .fcons k _ tl, key => k == key || JsonFields.hasKey tl key

/-! ### Data model (`models.py`)

The pydantic models.  `doc_type` is `Literal["minutes", "agenda"]` in the
source, embedded as a two-value inductive; optional fields are `Option`;
`datetime`/`date` values are embedded structurally and serialized as their
ISO-8601 strings, which is how pydantic emits them. -/

/-- The `Literal["minutes", "agenda"]` document classification. -/
inductive DocType where
  | minutes
  | agenda
  deriving DecidableEq, Repr

/-- The string pydantic stores and serializes for a `DocType`. -/
def DocType.toStr : DocType → String
  | .minutes => "minutes"
  | .agenda => "agenda"

/-- Model of `ExtractedItem`: one structured agenda item. -/
structure ExtractedItem where
  position : Int
  title : String

/-- Model of `ExtractedPayload`: optional title plus item list. -/
structure ExtractedPayload where
  title : Option String := none
  items : List ExtractedItem := []

/-- Model of `ExtractorMeta`: fixed provenance tag. -/
structure ExtractorMeta where
  name : String := "civic-ingest"
  version : String := "0.1.0"

/-- A calendar date (`datetime.date`). -/
structure PyDate where
  year : Nat
  month : Nat
  day : Nat
  deriving DecidableEq, Repr

/-- A timestamp (`datetime.datetime`, naive as produced by `utcnow`). -/
structure PyDateTime where
  year : Nat
  month : Nat
  day : Nat
  hour : Nat
  minute : Nat
  second : Nat
  microsecond : Nat
  deriving DecidableEq, Repr

/-- ISO-8601 date string, as pydantic serializes a `date`. -/
def isoDate (d : PyDate) : String :=
  padNat 4 d.year ++ "-" ++ padNat 2 d.month ++ "-" ++ padNat 2 d.day

/-- ISO-8601 timestamp string, as pydantic serializes a naive `datetime`
(fractional seconds only when the microsecond field is nonzero). -/
def isoDateTime (t : PyDateTime) : String :=
  padNat 4 t.year ++ "-" ++ padNat 2 t.month ++ "-" ++ padNat 2 t.day ++ "T" ++
    padNat 2 t.hour ++ ":" ++ padNat 2 t.minute ++ ":" ++ padNat 2 t.second ++
    (if t.microsecond = 0 then "" else "." ++ padNat 6 t.microsecond)

/-- Model of `DocRecord`: the persisted unit, fields in source order. -/
structure DocRecord where
  source_url : String
  doc_type : DocType
  committee : Option String := none
  meeting_date : Option PyDate := none
  sha256 : String
  mime : String := "application/pdf"
  file_size : Option Nat := none
  page_count : Option Nat := none
  extracted : ExtractedPayload := {}
  extracted_at : PyDateTime
  extractor : ExtractorMeta := {}

/-- JSON value of an optional string (`null` when absent). -/
def optStrJson : Option String → Json
  | none => .null
  | some s => .str s

/-- JSON value of an optional natural number (`null` when absent). -/
def optNatJson : Option Nat → Json
  | none => .null
  | some n => .num n

/-- JSON array elements for the extracted items, in order. -/
def itemsJson : List ExtractedItem → JsonList
  | [] => .nil
  | i :: tl =>
      .cons (.obj (.fcons "position" (.num i.position)
                    (.fcons "title" (.str i.title) .fnil)))
        (itemsJson tl)

/-- JSON object of an `ExtractedPayload`. -/
def ExtractedPayload.toJson (p : ExtractedPayload) : Json :=
  .obj (.fcons "title" (optStrJson p.title)
         (.fcons "items" (.arr (itemsJson p.items)) .fnil))

/-- JSON object of a `DocRecord`, fields in pydantic declaration order. -/
def DocRecord.toJson (r : DocRecord) : Json :=
  .obj (.fcons "source_url" (.str r.source_url)
    (.fcons "doc_type" (.str r.doc_type.toStr)
    (.fcons "committee" (optStrJson r.committee)
    (.fcons "meeting_date"
      (match r.meeting_date with
       | none => Json.null
       | some d => Json.str (isoDate d))
    (.fcons "sha256" (.str r.sha256)
    (.fcons "mime" (.str r.mime)
    (.fcons "file_size" (optNatJson r.file_size)
    (.fcons "page_count" (optNatJson r.page_count)
    (.fcons "extracted" r.extracted.toJson
    (.fcons "extracted_at" (.str (isoDateTime r.extracted_at))
    (.fcons "extractor"
      (.obj (.fcons "name" (.str r.extractor.name)
              (.fcons "version" (.str r.extractor.version) .fnil)))
    .fnil)))))))))))

/-- Model of `to_jsonl_line` from `models.py`: `record.model_dump_json()`, the
compact single-line JSON serialization of the record. -/
def to_jsonl_line (r : DocRecord) : String := (DocRecord.toJson r).render

/-! ### Listing extractor (`sfbos_extractor.py`)

The HTTP fetch and the HTML parse are external collaborators: the
embedding takes the parsed page (its tables, rows, cells and anchor
`href`s) as input.  The two regexes of the source are implemented with
Python `re.search` semantics (leftmost match, greedy with backtracking)
over the ASCII character classes above. -/

/-- Model of `FetchConfig` from the source (`doc_type` is a plain string there). -/
structure FetchConfig where
  since_year : Int := 2018
  doc_type : String := "minutes"
  user_agent : String := "Mozilla/5.0 (civic-ingest)"
  deriving DecidableEq, Repr

/-- A table cell: its `get_text(strip=True)` text and the `href` values of
its `<a>` descendants in document order (an anchor with no usable target
is an empty string, which the `\.pdf$` filter can never select). -/
structure Cell where
  text : String
  anchors : List String
  deriving DecidableEq, Repr

/-- A table row: its `<td>` cells. -/
structure Row where
  tds : List Cell
  deriving DecidableEq, Repr

/-- A table: its `<tr>` rows (first one is the header). -/
structure HtmlTable where
  trs : List Row
  deriving DecidableEq, Repr

/-- Out-of-range cell accesses never happen (guarded by the length check),
so `getD` with this default is exact. -/
def defaultCell : Cell := ⟨"", []⟩

/-- Match `\d{4}` at the start: four digits (more may follow). -/
def matchYear4 : List Char → Option (List Char)
  | a :: b :: c :: d :: _ =>
      if isDigitCh a && isDigitCh b && isDigitCh c && isDigitCh d then
        some [a, b, c, d]
      else none
  | _ => none

/-- Match `\s+\d{4}` at the start (whitespace and digits are disjoint, so
the greedy run needs no backtracking). -/
def matchWsYear (r : List Char) : Option (List Char) :=
  let ws := r.takeWhile isWsCh
  if ws.isEmpty then none
  else (matchYear4 (r.drop ws.length)).map (ws ++ ·)

/-- Match `,?\s+\d{4}` at the start; `,?` is greedy but backtracks. -/
def matchCommaTail (r : List Char) : Option (List Char) :=
  match r with
  | ',' :: r' => ((matchWsYear r').map (',' :: ·)) <|> matchWsYear r
  | _ => matchWsYear r

/-- Match `\d{1,2},?\s+\d{4}` at the start; `\d{1,2}` tries two digits,
then backtracks to one. -/
def matchDay : List Char → Option (List Char)
  | [] => none
  | a :: rest =>
      if isDigitCh a then
        (match rest with
         | b :: rest' =>
             if isDigitCh b then (matchCommaTail rest').map (fun t => a :: b :: t)
             else none
         | [] => none) <|> (matchCommaTail rest).map (a :: ·)
      else none

/-- Match the full date pattern `[A-Za-z]+\s+\d{1,2},?\s+\d{4}` at the
start of `cs`, returning the matched characters. -/
def matchDateAt (cs : List Char) : Option (List Char) :=
  let al := cs.takeWhile isAlphaCh
  if al.isEmpty then none
  else
    let r1 := cs.drop al.length
    let ws := r1.takeWhile isWsCh
    if ws.isEmpty then none
    else (matchDay (r1.drop ws.length)).map (fun t => al ++ ws ++ t)

/-- Leftmost occurrence of the date pattern (`re.search` scans start
positions left to right). -/
def searchDateList : List Char → Option (List Char)
  | [] => none
  | c :: rest => matchDateAt (c :: rest) <|> searchDateList rest

/-- Model of `re.search(r"([A-Za-z]+\s+\d{1,2},?\s+\d{4})", s)`, returning the
matched group. -/
def reSearchDate (s : String) : Option String :=
  (searchDateList s.data).map String.mk

/-- Model of `s.replace(",", "")`. -/
def removeCommas (s : String) : String :=
  String.mk (s.data.filter (· ≠ ','))

/-- Full month names of the C locale, the alternation `%B` matches
(case-insensitively, hence against the lowercased name). -/
def monthNames : List String :=
  ["january", "february", "march", "april", "may", "june",
   "july", "august", "september", "october", "november", "december"]

/-- The 1-based month number of a lowercased full month name. -/
def monthIndex (s : String) : Option Nat :=
  (monthNames.findIdx? (· == s)).map (· + 1)

/-- Gregorian leap-year rule used by `datetime`. -/
def isLeapYear (y : Nat) : Bool :=
  y % 4 == 0 && (y % 100 != 0 || y % 400 == 0)

/-- Days in a month, as `datetime` validates them. -/
def daysInMonth (y m : Nat) : Nat :=
  if m = 2 then (if isLeapYear y then 29 else 28)
  else if m = 4 ∨ m = 6 ∨ m = 9 ∨ m = 11 then 30
  else 31

/-- Numeric value of a digit run. -/
def digitsToNat (cs : List Char) : Nat :=
  cs.foldl (fun a c => a * 10 + (c.toNat - 48)) 0

/-- Model of `datetime.strptime(s, "%B %d %Y")`, `none` modelling the `ValueError`
it raises: the full month name must match case-insensitively, the day is
1–2 digits valued 1–31, the year exactly 4 digits, whitespace in the
format matches runs of whitespace, the whole string must be consumed, and
the resulting calendar date must exist (`datetime` bounds checking). -/
def strptime_BdY (s : String) : Option (Nat × Nat × Nat) :=
  let cs := s.data
  let name := cs.takeWhile isAlphaCh
  let r1 := cs.drop name.length
  match monthIndex (strToLower (String.mk name)) with
  | none => none
  | some m =>
    let ws1 := r1.takeWhile isWsCh
    if ws1.isEmpty then none
    else
      let r2 := r1.drop ws1.length
      let dd := r2.takeWhile isDigitCh
      if dd.isEmpty || 2 < dd.length then none
      else
        let d := digitsToNat dd
        if d < 1 || 31 < d then none
        else
          let r3 := r2.drop dd.length
          let ws2 := r3.takeWhile isWsCh
          if ws2.isEmpty then none
          else
            let r4 := r3.drop ws2.length
            let yy := r4.takeWhile isDigitCh
            if yy.length ≠ 4 then none
            else if ¬ (r4.drop 4).isEmpty then none
            else
              let y := digitsToNat yy
              if y < 1 then none
              else if daysInMonth y m < d then none
              else some (y, m, d)

/-- Model of `dt.strftime("%Y-%m-%d")`: unpadded year (glibc `%Y`; all years parsed
here have four digits anyway), zero-padded month and day. -/
def fmtISO (y m d : Nat) : String :=
  natStr y ++ "-" ++ padNat 2 m ++ "-" ++ padNat 2 d

/-- Does the string start with an RFC 3986 `scheme:` prefix? -/
def schemeRest : List Char → Bool
  | [] => false
  | c :: tl =>
      if c = ':' then true
      else if isAlphaCh c || isDigitCh c || c = '+' || c = '-' || c = '.' then schemeRest tl
      else false

/-- See `schemeRest`. -/
def hasSchemePrefix (u : String) : Bool :=
  match u.data with
  | [] => false
  | c :: rest => isAlphaCh c && schemeRest rest

/-- The characters before the first `:`. -/
def schemeOf (u : String) : String :=
  String.mk (u.data.takeWhile (· ≠ ':'))

/-- The characters after the first `:`. -/
def afterScheme (u : String) : String :=
  String.mk ((u.data.dropWhile (· ≠ ':')).drop 1)

/-- The path prefix up to and including its last `/` (the whole-root `/`
when the path has no slash). -/
def dirOfPath (p : List Char) : List Char :=
  let q := (p.reverse.dropWhile (· ≠ '/')).reverse
  if q.isEmpty then ['/'] else q

/-- Model of `requests.compat.urljoin` (= `urllib.parse.urljoin`) for the
reference shapes arising here: empty, absolute (`scheme:` prefix),
network-relative (`//…`), root-relative (`/…`) and document-relative
references.  Dot-segment normalization and same-scheme relative
references (`http:p`) are not modelled; no claim exercises them. -/
def urljoin (base url : String) : String :=
  if url = "" then base
  else if hasSchemePrefix url then url
  else if strStartsWith url "//" then schemeOf base ++ ":" ++ url
  else
    let rest := (afterScheme base).data.drop 2
    let netloc := String.mk (rest.takeWhile (fun c => c ≠ '/' && c ≠ '?' && c ≠ '#'))
    let origin := schemeOf base ++ "://" ++ netloc
    if strStartsWith url "/" then origin ++ url
    else
      let path := (rest.dropWhile (fun c => c ≠ '/' && c ≠ '?' && c ≠ '#')).takeWhile
        (fun c => c ≠ '?' && c ≠ '#')
      origin ++ String.mk (dirOfPath path) ++ url

/-- The anchor filter `re.compile(r"\.pdf$", re.I)` applied to an `href`
value: a case-insensitive `.pdf` at the end (or just before a final
newline, which is what `$` also accepts). -/
def pdfHrefRe (h : String) : Bool :=
  strEndsWith (strToLower h) ".pdf" || strEndsWith (strToLower h) ".pdf\n"

/-- The loop body of `fetch_listing` for one data row.  Result layers:
`none` models an uncaught exception (`strptime` raising `ValueError`);
`some none` a silently skipped row; `some (some e)` a produced entry. -/
def processRow (base : String) (cfg : FetchConfig) (row : Row) :
    Option (Option (String × String)) :=
  let cols := row.tds
  if cols.length < 3 then some none
  else
    let date_text := (cols.getD 0 defaultCell).text
    match reSearchDate date_text with
    | none => some none
    | some m =>
      match strptime_BdY (removeCommas m) with
      | none => none
      | some (y, mo, d) =>
        if (y : Int) < cfg.since_year then some none
        else
          let file_td :=
            if strToLower cfg.doc_type = "minutes" then cols.getD 2 defaultCell
            else cols.getD 1 defaultCell
          match file_td.anchors.find? pdfHrefRe with
          | none => some none
          | some href =>
            if href = "" then some none
            else some (some (fmtISO y mo d, urljoin base href))

/-- The row loop of `fetch_listing`, in row order; an exception aborts the
whole call. -/
def fetchRows (base : String) (cfg : FetchConfig) : List Row → Option (List (String × String))
  | [] => some []
  | r :: rs =>
      match processRow base cfg r with
      | none => none
      | some none => fetchRows base cfg rs
      | some (some e) => (fetchRows base cfg rs).map (e :: ·)

/-- Model of `fetch_listing`, with the fetched page already parsed into its tables
(HTTP transport and HTML parsing are external capabilities; a non-success
status would have raised before any of this runs).  Only the first table
is parsed; its first row is the skipped header. -/
def fetch_listing (doc : List HtmlTable) (base_url : String) (cfg : FetchConfig) :
    Option (List (String × String)) :=
  match doc with
  | [] => some []
  | t :: _ => fetchRows base_url cfg (t.trs.drop 1)

/-! ### PDF acquisition (`download_pdf`) -/

/-- Model of `url.rsplit("/", 1)[-1]`: the substring after the last `/` (the whole
string when there is none). -/
def afterLastSlash (u : String) : String :=
  String.mk ((u.data.reverse.takeWhile (· ≠ '/')).reverse)

/-- The local filename `download_pdf` derives: last URL segment, with
`.pdf` appended when the (lowercased) name does not already end in it. -/
def derivedName (url : String) : String :=
  let name := afterLastSlash url
  if strEndsWith (strToLower name) ".pdf" then name else name ++ ".pdf"

/-- Lookup of a path in the modelled destination directory. -/
def fsLookup (fs : List (String × List Nat)) (p : String) : Option (List Nat) :=
  (fs.find? (·.1 == p)).map (·.2)

/-- Result of one `download_pdf` call: the returned path, the directory
contents afterwards, and how many HTTP requests were made. -/
structure DlResult where
  path : String
  fs : List (String × List Nat)
  fetches : Nat
  deriving DecidableEq, Repr

/-- Model of `download_pdf(url, dest_dir)`; the destination directory is the map
`fs` from file path to bytes, `net` is the (successful) HTTP GET body per
URL.  Directory creation has no effect on the modelled map; a non-success
response would raise out of the call without writing. -/
def download_pdf (url : String) (dest_dir : String) (net : String → List Nat)
    (fs : List (String × List Nat)) : DlResult :=
  let name := derivedName url
  let path := dest_dir ++ "/" ++ name
  if (fsLookup fs path).isSome then ⟨path, fs, 0⟩
  else ⟨path, (path, net url) :: fs, 1⟩

/-! ### Metadata builder (`extract_metadata`) -/

/-- Outcome of `pdf.pages[0].extract_text()` for a page: a returned value
(possibly `None`, coerced by `or ""`), or a raised exception. -/
inductive PageResult where
  | text : Option String → PageResult
  | raises : PageResult

/-- Outcome of the optional introspection capability: `unavailable` when
the `pdfplumber` import or `pdfplumber.open` fails, otherwise the opened
document's pages. -/
inductive IntroOutcome where
  | unavailable : IntroOutcome
  | opened : List PageResult → IntroOutcome

/-- Case-insensitive literal prefix test (on ASCII lowering). -/
def startsWithCI (pat : String) (cs : List Char) : Bool :=
  pat.data == (cs.take pat.data.length).map Char.toLower

/-- Python `str.strip()` (ASCII whitespace model). -/
def stripStr (cs : List Char) : List Char :=
  ((cs.dropWhile isWsCh).reverse.dropWhile isWsCh).reverse

/-- Leftmost match of `(?:Meeting|Agenda).*` with `re.I`: from the first
case-insensitive occurrence of either word through the end of the line
(`.` does not cross a newline). -/
def titleSearchAux : List Char → Option (List Char)
  | [] => none
  | c :: rest =>
      if startsWithCI "meeting" (c :: rest) || startsWithCI "agenda" (c :: rest) then
        some ((c :: rest).takeWhile (· ≠ '\n'))
      else titleSearchAux rest

/-- Model of `m.group(0).strip() if m else None` over the title regex. -/
def titleSearch (s : String) : Option String :=
  (titleSearchAux s.data).map (fun cs => String.mk (stripStr cs))

/-- The `try` block of `extract_metadata`: which of `page_count` / `title`
got assigned before an exception (if any) was swallowed.  When the open
succeeds, `page_count = len(pdf.pages)` is assigned first, so it keeps its
value even when `pdf.pages[0]` (empty document) or `extract_text()`
raises afterwards. -/
def runIntro : IntroOutcome → Option Nat × Option String
  | .unavailable => (none, none)
  | .opened [] => (some 0, none)
  | .opened (.raises :: tl) => (some (tl.length + 1), none)
  | .opened (.text t :: tl) => (some (tl.length + 1), titleSearch (t.getD ""))

/-- Model of `extract_metadata(pdf_path, source_url, committee, doc_type)` with the
file given as its bytes, the introspection capability as an explicit
outcome, and the construction-time clock as `now` (pydantic's
`default_factory=datetime.utcnow`).  `doc_type` is `DocType` because both
the CLI (`choices`) and the pydantic `Literal` confine it to the two
values. -/
def extract_metadata (fileBytes : List Nat) (source_url : String)
    (committee : Option String) (doc_type : DocType)
    (intro : IntroOutcome) (now : PyDateTime) : DocRecord :=
  let sha := sha256_file fileBytes
  let size := fileBytes.length
  let pt := runIntro intro
  { source_url := source_url
    doc_type := doc_type
    committee := committee
    meeting_date := none
    sha256 := sha
    mime := "application/pdf"
    file_size := some size
    page_count := pt.1
    extracted := { title := pt.2, items := [] }
    extracted_at := now
    extractor := {} }

/-! ### CLI extract output (`cmd_extract` in `cli.py`) -/

/-- The bytes `cmd_extract` leaves in the output file, given the file's
prior content and the records produced (in sorted-filename order):
`out_path.open("w", encoding="utf-8")` truncates the file, then one JSON
line plus `"\n"` is written per record. -/
def cmd_extract_write (prior : String) (records : List DocRecord) : String :=
  records.foldl (fun acc r => acc ++ (to_jsonl_line r ++ "\n")) ""

/-! ### Lemmas about the streamed hash -/

theorem procBlocks_step (r data : List Nat) (h : 64 ≤ data.length) :
    procBlocks r data = procBlocks (compress r (data.take 64)) (data.drop 64) := by
  rw [procBlocks]
  exact dif_pos h

theorem procBlocks_small (r data : List Nat) (h : ¬ 64 ≤ data.length) :
    procBlocks r data = (r, data) := by
  rw [procBlocks]
  exact dif_neg h

theorem procBlocks_append_aux :
    ∀ (n : Nat) (a r b : List Nat), a.length ≤ n →
      procBlocks r (a ++ b) =
        procBlocks (procBlocks r a).1 ((procBlocks r a).2 ++ b) := by
  intro n
  induction n with
  | zero =>
    intro a r b ha
    have haa : a = [] := by
      cases a with
      | nil => rfl
      | cons x xs => simp at ha
    subst haa
    rw [procBlocks_small r [] (by simp)]
  | succ n ih =>
    intro a r b ha
    by_cases h : 64 ≤ a.length
    · have h2 : 64 ≤ (a ++ b).length := by
        rw [List.length_append]; omega
      rw [procBlocks_step r (a ++ b) h2, procBlocks_step r a h,
          List.take_append_of_le_length (by omega),
          List.drop_append_of_le_length (by omega)]
      exact ih (a.drop 64) (compress r (a.take 64)) b (by simp; omega)
    · rw [procBlocks_small r a h]

theorem procBlocks_append (a r b : List Nat) :
    procBlocks r (a ++ b) =
      procBlocks (procBlocks r a).1 ((procBlocks r a).2 ++ b) :=
  procBlocks_append_aux a.length a r b le_rfl

theorem HashState.update_append (s : HashState) (a b : List Nat) :
    (s.update a).update b = s.update (a ++ b) := by
  have h := procBlocks_append (s.buf ++ a) s.regs b
  rw [List.append_assoc] at h
  simp only [HashState.update]
  rw [← h, List.length_append, Nat.add_assoc]

theorem foldl_update (cs : List (List Nat)) :
    ∀ (s : HashState) (c : List Nat),
      cs.foldl HashState.update (s.update c) = s.update (c ++ cs.flatten) := by
  induction cs with
  | nil => intro s c; simp
  | cons d ds ih =>
    intro s c
    simp only [List.foldl_cons, List.flatten_cons, HashState.update_append s c d]
    rw [ih s (c ++ d), List.append_assoc]

theorem readChunks_nil : readChunks [] = [] := by
  rw [readChunks]
  exact dif_pos rfl

theorem readChunks_cons (l : List Nat) (h : l ≠ []) :
    readChunks l = l.take 8192 :: readChunks (l.drop 8192) := by
  rw [readChunks]
  exact dif_neg h

theorem readChunks_join_aux :
    ∀ (n : Nat) (l : List Nat), l.length ≤ n → (readChunks l).flatten = l := by
  intro n
  induction n with
  | zero =>
    intro l hl
    have : l = [] := by
      cases l with
      | nil => rfl
      | cons x xs => simp at hl
    subst this
    rw [readChunks_nil]
    rfl
  | succ n ih =>
    intro l hl
    by_cases h : l = []
    · subst h; rw [readChunks_nil]; rfl
    · rw [readChunks_cons l h]
      have hpos : 0 < l.length := List.length_pos.mpr h
      rw [List.flatten_cons, ih (l.drop 8192) (by simp; omega)]
      exact List.take_append_drop 8192 l

theorem readChunks_join (l : List Nat) : (readChunks l).flatten = l :=
  readChunks_join_aux l.length l le_rfl

theorem foldl_update_init (content : List Nat) :
    (readChunks content).foldl HashState.update HashState.init =
      HashState.init.update content := by
  by_cases h : content = []
  · subst h
    rw [readChunks_nil]
    simp only [List.foldl_nil, HashState.update, HashState.init]
    rw [procBlocks_small shaH0 ([] ++ []) (by simp)]
    rfl
  · rw [readChunks_cons content h]
    simp only [List.foldl_cons]
    rw [foldl_update (readChunks (content.drop 8192)) HashState.init (content.take 8192),
        readChunks_join (content.drop 8192), List.take_append_drop]



/-- C8: for every file content, the streamed hash of `_sha256_file`
(SHA-256 updated over successive 8192-byte chunks until end of file)
equals the lowercase hex SHA-256 digest of the entire byte content hashed
in a single pass. -/
theorem claim_C8 (content : List Nat) :
    sha256_file content = sha256_single_pass content := by
  unfold sha256_file sha256_single_pass sha256Bytes
  rw [foldl_update_init]
  simp only [HashState.update, HashState.hexdigest, HashState.init,
    List.nil_append, Nat.zero_add]
  rw [← procBlocks_append]

/-! ### Newline-freeness of the JSON serialization -/

theorem nl_not_mem_append {a b : String} (ha : '\n' ∉ a.data) (hb : '\n' ∉ b.data) :
    '\n' ∉ (a ++ b).data := by
  simp only [String.data_append, List.mem_append]
  rintro (h | h)
  exacts [ha h, hb h]

theorem hexChar_ne_nl (d : Nat) : hexChar d ≠ '\n' := by
  have h : d % 16 < 16 := Nat.mod_lt _ (by omega)
  unfold hexChar
  generalize d % 16 = r at h ⊢
  interval_cases r <;> decide

theorem digitChar_ne_nl (d : Nat) : digitChar d ≠ '\n' := by
  have h : d % 10 < 10 := Nat.mod_lt _ (by omega)
  unfold digitChar
  generalize d % 10 = r at h ⊢
  interval_cases r <;> decide

theorem natCharsAux_ne_nl :
    ∀ (fuel n : Nat), ∀ c ∈ natCharsAux fuel n, c ≠ '\n' := by
  intro fuel
  induction fuel with
  | zero =>
    intro n c hc
    simp [natCharsAux] at hc
  | succ fuel ih =>
    intro n c hc
    rw [natCharsAux] at hc
    by_cases h : n < 10
    · rw [if_pos h] at hc
      simp at hc
      subst hc
      exact digitChar_ne_nl n
    · rw [if_neg h] at hc
      rcases List.mem_append.mp hc with h1 | h1
      · exact ih (n / 10) c h1
      · simp at h1
        subst h1
        exact digitChar_ne_nl (n % 10)

theorem noNL_natStr (n : Nat) : '\n' ∉ (natStr n).data := by
  intro h
  exact natCharsAux_ne_nl (n + 1) n '\n' h rfl

theorem noNL_intStr (n : Int) : '\n' ∉ (intStr n).data := by
  unfold intStr
  split_ifs
  · exact nl_not_mem_append (by decide) (noNL_natStr _)
  · exact noNL_natStr _

theorem noNL_padNat (w n : Nat) : '\n' ∉ (padNat w n).data := by
  unfold padNat
  refine nl_not_mem_append ?_ (noNL_natStr n)
  intro h
  have := List.eq_of_mem_replicate h
  simp at this

theorem noNL_escChar (c : Char) : '\n' ∉ (escChar c).data := by
  unfold escChar
  split_ifs with h1 h2 h3 h4 h5 h6 h7 h8
  · decide
  · decide
  · decide
  · decide
  · decide
  · decide
  · decide
  · refine nl_not_mem_append (by decide) ?_
    show '\n' ∉ byteHex c.toNat
    unfold byteHex
    intro h
    simp only [List.mem_cons, List.not_mem_nil, or_false] at h
    rcases h with h | h
    · exact hexChar_ne_nl _ h.symm
    · exact hexChar_ne_nl _ h.symm
  · show '\n' ∉ [c]
    intro h
    simp only [List.mem_cons, List.not_mem_nil, or_false] at h
    exact h3 h.symm

theorem noNL_strConcat :
    ∀ l : List String, (∀ x ∈ l, '\n' ∉ x.data) → '\n' ∉ (strConcat l).data := by
  intro l
  induction l with
  | nil => intro _; decide
  | cons s tl ih =>
    intro h
    unfold strConcat
    exact nl_not_mem_append (h s (by simp)) (ih fun x hx => h x (by simp [hx]))

theorem noNL_renderString (s : String) : '\n' ∉ (renderString s).data := by
  unfold renderString
  refine nl_not_mem_append (nl_not_mem_append (by decide) ?_) (by decide)
  refine noNL_strConcat _ ?_
  intro x hx
  rcases List.mem_map.mp hx with ⟨c, _, rfl⟩
  exact noNL_escChar c

mutual

theorem noNL_render : ∀ j : Json, '\n' ∉ (Json.render j).data
  | .str s => by
    simp only [Json.render]
    exact noNL_renderString s
  | .num n => by
    simp only [Json.render]
    exact noNL_intStr n
  | .null => by
    simp only [Json.render]
    decide
  | .arr l => by
    simp only [Json.render]
    exact nl_not_mem_append (nl_not_mem_append (by decide) (noNL_renderList l)) (by decide)
  | .obj fs => by
    simp only [Json.render]
    exact nl_not_mem_append (nl_not_mem_append (by decide) (noNL_renderFields fs)) (by decide)

theorem noNL_renderList : ∀ l : JsonList, '\n' ∉ (JsonList.render l).data
  | .nil => by
    simp only [JsonList.render]
    decide
  | .cons j .nil => by
    simp only [JsonList.render]
    exact noNL_render j
  | .cons j (.cons j' tl) => by
    simp only [JsonList.render]
    exact nl_not_mem_append (nl_not_mem_append (noNL_render j) (by decide))
      (noNL_renderList (.cons j' tl))

theorem noNL_renderFields : ∀ fs : JsonFields, '\n' ∉ (JsonFields.render fs).data
  | .fnil => by
    simp only [JsonFields.render]
    decide
  | .fcons k v .fnil => by
    simp only [JsonFields.render]
    exact nl_not_mem_append (nl_not_mem_append (noNL_renderString k) (by decide)) (noNL_render v)
  | .fcons k v (.fcons k' v' tl) => by
    simp only [JsonFields.render]
    exact nl_not_mem_append
      (nl_not_mem_append
        (nl_not_mem_append (nl_not_mem_append (noNL_renderString k) (by decide)) (noNL_render v))
        (by decide))
      (noNL_renderFields (.fcons k' v' tl))

end

/-- C3: for every `DocRecord` value, `to_jsonl_line` returns a string with
no literal newline character, and the serialized JSON document is an
object carrying at least the keys `source_url`, `doc_type`, `sha256` and
`extracted`. -/
theorem claim_C3 (r : DocRecord) :
    '\n' ∉ (to_jsonl_line r).data ∧
    ∃ fs, DocRecord.toJson r = Json.obj fs ∧
      (fs.hasKey "source_url" && fs.hasKey "doc_type" &&
       fs.hasKey "sha256" && fs.hasKey "extracted") = true := by
  constructor
  · exact noNL_render (DocRecord.toJson r)
  · refine ⟨_, rfl, ?_⟩
    simp only [JsonFields.hasKey]
    decide

/-! ### Listing-extractor claims -/

theorem processRow_short (base : String) (cfg : FetchConfig) (row : Row)
    (h : row.tds.length < 3) : processRow base cfg row = some none := by
  simp only [processRow]
  rw [if_pos h]

theorem processRow_no_date (base : String) (cfg : FetchConfig) (row : Row)
    (h : ¬ row.tds.length < 3)
    (hs : reSearchDate (row.tds.getD 0 defaultCell).text = none) :
    processRow base cfg row = some none := by
  simp only [processRow]
  rw [if_neg h, hs]

theorem processRow_bad_date (base : String) (cfg : FetchConfig) (row : Row) (m : String)
    (h : ¬ row.tds.length < 3)
    (hs : reSearchDate (row.tds.getD 0 defaultCell).text = some m)
    (hp : strptime_BdY (removeCommas m) = none) :
    processRow base cfg row = none := by
  simp only [processRow]
  rw [if_neg h, hs]
  dsimp only
  rw [hp]

theorem processRow_no_link (base : String) (cfg : FetchConfig) (row : Row)
    (y mo d : Nat) (m : String)
    (h : ¬ row.tds.length < 3)
    (hs : reSearchDate (row.tds.getD 0 defaultCell).text = some m)
    (hp : strptime_BdY (removeCommas m) = some (y, mo, d))
    (hy : ¬ (y : Int) < cfg.since_year)
    (hf : (if strToLower cfg.doc_type = "minutes" then row.tds.getD 2 defaultCell
           else row.tds.getD 1 defaultCell).anchors.find? pdfHrefRe = none) :
    processRow base cfg row = some none := by
  simp only [processRow]
  rw [if_neg h, hs]
  dsimp only
  rw [hp]
  dsimp only
  rw [if_neg hy, hf]

theorem processRow_old_year (base : String) (cfg : FetchConfig) (row : Row)
    (y mo d : Nat) (m : String)
    (h : ¬ row.tds.length < 3)
    (hs : reSearchDate (row.tds.getD 0 defaultCell).text = some m)
    (hp : strptime_BdY (removeCommas m) = some (y, mo, d))
    (hy : (y : Int) < cfg.since_year) :
    processRow base cfg row = some none := by
  simp only [processRow]
  rw [if_neg h, hs]
  dsimp only
  rw [hp]
  dsimp only
  rw [if_pos hy]

theorem processRow_entry (base : String) (cfg : FetchConfig) (row : Row)
    (y mo d : Nat) (m href : String)
    (h : ¬ row.tds.length < 3)
    (hs : reSearchDate (row.tds.getD 0 defaultCell).text = some m)
    (hp : strptime_BdY (removeCommas m) = some (y, mo, d))
    (hy : ¬ (y : Int) < cfg.since_year)
    (hf : (if strToLower cfg.doc_type = "minutes" then row.tds.getD 2 defaultCell
           else row.tds.getD 1 defaultCell).anchors.find? pdfHrefRe = some href)
    (hne : ¬ href = "") :
    processRow base cfg row = some (some (fmtISO y mo d, urljoin base href)) := by
  simp only [processRow]
  rw [if_neg h, hs]
  dsimp only
  rw [hp]
  dsimp only
  rw [if_neg hy, hf]
  dsimp only
  rw [if_neg hne]

/-- C2 (amended): a listing row with fewer than 3 cells, or whose first
cell's text contains no match of the date pattern, or with no
`.pdf`-suffixed anchor in the selected cell, contributes zero entries to
the result and raises nothing; however, when the date pattern does match
but the matched text is not a valid calendar date (unrecognized month
name, day outside 1–31 or invalid for the month, year 0), `strptime`
raises a `ValueError` that propagates out of `fetch_listing` (modelled by
the `none` result), so `fetch_listing` is not exception-free on every
malformed row. -/
theorem claim_C2 :
    (∀ (base : String) (cfg : FetchConfig) (row : Row),
      row.tds.length < 3 → processRow base cfg row = some none) ∧
    (∀ (base : String) (cfg : FetchConfig) (row : Row),
      ¬ row.tds.length < 3 →
      reSearchDate (row.tds.getD 0 defaultCell).text = none →
      processRow base cfg row = some none) ∧
    (∀ (base : String) (cfg : FetchConfig) (row : Row) (y mo d : Nat) (m : String),
      ¬ row.tds.length < 3 →
      reSearchDate (row.tds.getD 0 defaultCell).text = some m →
      strptime_BdY (removeCommas m) = some (y, mo, d) →
      ¬ (y : Int) < cfg.since_year →
      (if strToLower cfg.doc_type = "minutes" then row.tds.getD 2 defaultCell
       else row.tds.getD 1 defaultCell).anchors.find? pdfHrefRe = none →
      processRow base cfg row = some none) ∧
    (∀ (base : String) (cfg : FetchConfig) (row : Row) (m : String),
      ¬ row.tds.length < 3 →
      reSearchDate (row.tds.getD 0 defaultCell).text = some m →
      strptime_BdY (removeCommas m) = none →
      processRow base cfg row = none) :=
  ⟨processRow_short, processRow_no_date, processRow_no_link, processRow_bad_date⟩

/-- Witness for C2: each clause applied at a concrete malformed row. -/
theorem claim_C2_witness :
    (processRow "https://sfbos.org/x" {} ⟨[⟨"May 5, 2021", []⟩, ⟨"", []⟩]⟩ = some none) ∧
    (processRow "https://sfbos.org/x" {}
        ⟨[⟨"no date here", []⟩, ⟨"", ["agenda.pdf"]⟩, ⟨"", ["minutes.pdf"]⟩]⟩ = some none) ∧
    (processRow "https://sfbos.org/x" {}
        ⟨[⟨"June 15, 2019", []⟩, ⟨"", ["agenda.pdf"]⟩, ⟨"", []⟩]⟩ = some none) ∧
    (processRow "https://sfbos.org/x" {}
        ⟨[⟨"Foobar 15, 2020", []⟩, ⟨"", ["agenda.pdf"]⟩, ⟨"", ["minutes.pdf"]⟩]⟩ = none) :=
  ⟨claim_C2.1 _ _ _ (by decide),
   claim_C2.2.1 _ _ _ (by decide) (by decide),
   claim_C2.2.2.1 _ _ _ 2019 6 15 "June 15, 2019" (by decide) (by decide) (by decide)
     (by decide) (by decide),
   claim_C2.2.2.2 _ _ _ "Foobar 15, 2020" (by decide) (by decide) (by decide)⟩

/-- Counterexample for C2 as stated: a row whose first cell reads
"Foobar 15, 2020" has an unparseable date string (the pattern matches but
the month name is not real), and `fetch_listing` raises (`none`) instead
of skipping the row. -/
theorem claim_C2_counterexample :
    fetch_listing
      [⟨[⟨[⟨"Date", []⟩, ⟨"Agenda", []⟩, ⟨"Minutes", []⟩]⟩,
         ⟨[⟨"Foobar 15, 2020", []⟩, ⟨"", ["agenda.pdf"]⟩, ⟨"", ["minutes.pdf"]⟩]⟩]⟩]
      "https://sfbos.org/x" {} = none := by
  decide

/-- C4: for a listing row with at least 3 cells and a valid in-range date,
the PDF link is sought in the third cell (index 2) exactly when the
configured `doc_type` is "minutes" and in the second cell (index 1)
otherwise; on the row whose second-cell link is `agenda.pdf` and
third-cell link is `minutes.pdf`, `doc_type="minutes"` yields the URL
ending in `minutes.pdf` and `doc_type="agenda"` the URL ending in
`agenda.pdf`. -/
theorem claim_C4 :
    (∀ (base : String) (cfg : FetchConfig) (row : Row) (y mo d : Nat) (m href : String),
      ¬ row.tds.length < 3 →
      reSearchDate (row.tds.getD 0 defaultCell).text = some m →
      strptime_BdY (removeCommas m) = some (y, mo, d) →
      ¬ (y : Int) < cfg.since_year →
      ¬ href = "" →
      ((strToLower cfg.doc_type = "minutes" →
        (row.tds.getD 2 defaultCell).anchors.find? pdfHrefRe = some href →
        processRow base cfg row = some (some (fmtISO y mo d, urljoin base href))) ∧
       (¬ strToLower cfg.doc_type = "minutes" →
        (row.tds.getD 1 defaultCell).anchors.find? pdfHrefRe = some href →
        processRow base cfg row = some (some (fmtISO y mo d, urljoin base href))))) ∧
    fetch_listing
      [⟨[⟨[⟨"Date", []⟩, ⟨"Agenda", []⟩, ⟨"Minutes", []⟩]⟩,
         ⟨[⟨"June 15, 2019", []⟩, ⟨"", ["agenda.pdf"]⟩, ⟨"", ["minutes.pdf"]⟩]⟩]⟩]
      "https://sfbos.org/meetings/land-use-and-transportation-committee"
      {doc_type := "minutes"} =
      some [("2019-06-15", "https://sfbos.org/meetings/minutes.pdf")] ∧
    fetch_listing
      [⟨[⟨[⟨"Date", []⟩, ⟨"Agenda", []⟩, ⟨"Minutes", []⟩]⟩,
         ⟨[⟨"June 15, 2019", []⟩, ⟨"", ["agenda.pdf"]⟩, ⟨"", ["minutes.pdf"]⟩]⟩]⟩]
      "https://sfbos.org/meetings/land-use-and-transportation-committee"
      {doc_type := "agenda"} =
      some [("2019-06-15", "https://sfbos.org/meetings/agenda.pdf")] ∧
    strEndsWith "https://sfbos.org/meetings/minutes.pdf" "minutes.pdf" = true ∧
    strEndsWith "https://sfbos.org/meetings/agenda.pdf" "agenda.pdf" = true := by
  refine ⟨?_, by decide, by decide, by decide, by decide⟩
  intro base cfg row y mo d m href h hs hp hy hne
  constructor
  · intro hmin hf
    refine processRow_entry base cfg row y mo d m href h hs hp hy ?_ hne
    rw [if_pos hmin]
    exact hf
  · intro hmin hf
    refine processRow_entry base cfg row y mo d m href h hs hp hy ?_ hne
    rw [if_neg hmin]
    exact hf

/-- Witness for C4: the general clause applied to the concrete row of the
claim, in both the minutes and the agenda configuration. -/
theorem claim_C4_witness :
    processRow "https://sfbos.org/meetings/land-use-and-transportation-committee"
      {doc_type := "minutes"}
      ⟨[⟨"June 15, 2019", []⟩, ⟨"", ["agenda.pdf"]⟩, ⟨"", ["minutes.pdf"]⟩]⟩ =
      some (some ("2019-06-15", "https://sfbos.org/meetings/minutes.pdf")) ∧
    processRow "https://sfbos.org/meetings/land-use-and-transportation-committee"
      {doc_type := "agenda"}
      ⟨[⟨"June 15, 2019", []⟩, ⟨"", ["agenda.pdf"]⟩, ⟨"", ["minutes.pdf"]⟩]⟩ =
      some (some ("2019-06-15", "https://sfbos.org/meetings/agenda.pdf")) := by
  constructor
  · have h := (claim_C4.1 "https://sfbos.org/meetings/land-use-and-transportation-committee"
      {doc_type := "minutes"}
      ⟨[⟨"June 15, 2019", []⟩, ⟨"", ["agenda.pdf"]⟩, ⟨"", ["minutes.pdf"]⟩]⟩
      2019 6 15 "June 15, 2019" "minutes.pdf"
      (by decide) (by decide) (by decide) (by decide) (by decide)).1
      (by decide) (by decide)
    rw [h]
    decide
  · have h := (claim_C4.1 "https://sfbos.org/meetings/land-use-and-transportation-committee"
      {doc_type := "agenda"}
      ⟨[⟨"June 15, 2019", []⟩, ⟨"", ["agenda.pdf"]⟩, ⟨"", ["minutes.pdf"]⟩]⟩
      2019 6 15 "June 15, 2019" "agenda.pdf"
      (by decide) (by decide) (by decide) (by decide) (by decide)).2
      (by decide) (by decide)
    rw [h]
    decide

/-- C7: a row whose parsed meeting date has a year below the configured
floor is excluded, a row at or after the floor (with a PDF link in the
selected cell) is included, and on the synthetic table with rows dated
2017-03-01 and 2019-06-15 under `since_year = 2018` the result is exactly
the one 2019-06-15 entry. -/
theorem claim_C7 :
    (∀ (base : String) (cfg : FetchConfig) (row : Row) (y mo d : Nat) (m : String),
      ¬ row.tds.length < 3 →
      reSearchDate (row.tds.getD 0 defaultCell).text = some m →
      strptime_BdY (removeCommas m) = some (y, mo, d) →
      (y : Int) < cfg.since_year →
      processRow base cfg row = some none) ∧
    (∀ (base : String) (cfg : FetchConfig) (row : Row) (y mo d : Nat) (m href : String),
      ¬ row.tds.length < 3 →
      reSearchDate (row.tds.getD 0 defaultCell).text = some m →
      strptime_BdY (removeCommas m) = some (y, mo, d) →
      ¬ (y : Int) < cfg.since_year →
      (if strToLower cfg.doc_type = "minutes" then row.tds.getD 2 defaultCell
       else row.tds.getD 1 defaultCell).anchors.find? pdfHrefRe = some href →
      ¬ href = "" →
      processRow base cfg row = some (some (fmtISO y mo d, urljoin base href))) ∧
    fetch_listing
      [⟨[⟨[⟨"Date", []⟩, ⟨"Agenda", []⟩, ⟨"Minutes", []⟩]⟩,
         ⟨[⟨"March 1, 2017", []⟩, ⟨"", ["a2017.pdf"]⟩, ⟨"", ["m2017.pdf"]⟩]⟩,
         ⟨[⟨"June 15, 2019", []⟩, ⟨"", ["agenda.pdf"]⟩, ⟨"", ["minutes.pdf"]⟩]⟩]⟩]
      "https://sfbos.org/meetings/land-use-and-transportation-committee"
      {since_year := 2018} =
      some [("2019-06-15", "https://sfbos.org/meetings/minutes.pdf")] := by
  refine ⟨processRow_old_year, ?_, by decide⟩
  intro base cfg row y mo d m href h hs hp hy hf hne
  exact processRow_entry base cfg row y mo d m href h hs hp hy hf hne

/-- Witness for C7: exclusion applied to the 2017 row and inclusion to the
2019 row of the synthetic table, under `since_year = 2018`. -/
theorem claim_C7_witness :
    processRow "https://sfbos.org/meetings/land-use-and-transportation-committee"
      {since_year := 2018}
      ⟨[⟨"March 1, 2017", []⟩, ⟨"", ["a2017.pdf"]⟩, ⟨"", ["m2017.pdf"]⟩]⟩ = some none ∧
    processRow "https://sfbos.org/meetings/land-use-and-transportation-committee"
      {since_year := 2018}
      ⟨[⟨"June 15, 2019", []⟩, ⟨"", ["agenda.pdf"]⟩, ⟨"", ["minutes.pdf"]⟩]⟩ =
      some (some ("2019-06-15", "https://sfbos.org/meetings/minutes.pdf")) := by
  constructor
  · exact claim_C7.1 _ _ _ 2017 3 1 "March 1, 2017"
      (by decide) (by decide) (by decide) (by decide)
  · have h := claim_C7.2.1 "https://sfbos.org/meetings/land-use-and-transportation-committee"
      {since_year := 2018}
      ⟨[⟨"June 15, 2019", []⟩, ⟨"", ["agenda.pdf"]⟩, ⟨"", ["minutes.pdf"]⟩]⟩
      2019 6 15 "June 15, 2019" "minutes.pdf"
      (by decide) (by decide) (by decide) (by decide) (by decide) (by decide)
    rw [h]
    decide

theorem processRow_congr (base : String) (cfg cfg' : FetchConfig) (row : Row)
    (hs : cfg.since_year = cfg'.since_year)
    (hd : (strToLower cfg.doc_type = "minutes") ↔ (strToLower cfg'.doc_type = "minutes")) :
    processRow base cfg row = processRow base cfg' row := by
  by_cases h : strToLower cfg.doc_type = "minutes"
  · have h' := hd.mp h
    simp only [processRow, hs, h, h', if_true]
  · have h' : ¬ strToLower cfg'.doc_type = "minutes" := fun hh => h (hd.mpr hh)
    simp only [processRow, hs, h, h', if_false]

theorem fetchRows_congr (base : String) (cfg cfg' : FetchConfig)
    (hs : cfg.since_year = cfg'.since_year)
    (hd : (strToLower cfg.doc_type = "minutes") ↔ (strToLower cfg'.doc_type = "minutes")) :
    ∀ rows : List Row, fetchRows base cfg rows = fetchRows base cfg' rows := by
  intro rows
  induction rows with
  | nil => rfl
  | cons r rs ih =>
    simp only [fetchRows, processRow_congr base cfg cfg' r hs hd, ih]

theorem fetch_listing_congr (doc : List HtmlTable) (base : String) (cfg cfg' : FetchConfig)
    (hs : cfg.since_year = cfg'.since_year)
    (hd : (strToLower cfg.doc_type = "minutes") ↔ (strToLower cfg'.doc_type = "minutes")) :
    fetch_listing doc base cfg = fetch_listing doc base cfg' := by
  cases doc with
  | nil => rfl
  | cons t ts => exact fetchRows_congr base cfg cfg' hs hd (t.trs.drop 1)

/-- C9: `fetch_listing` performs no validation of `config.doc_type`: any
configuration whose lowercased `doc_type` is not "minutes" — including
values outside the recognized set — behaves exactly like the "agenda"
configuration (second cell, index 1, no error), and the mixed-case
"MINUTES" behaves exactly like "minutes" (third cell, index 2). -/
theorem claim_C9 :
    (∀ (doc : List HtmlTable) (base : String) (cfg : FetchConfig),
      ¬ strToLower cfg.doc_type = "minutes" →
      fetch_listing doc base cfg = fetch_listing doc base {cfg with doc_type := "agenda"}) ∧
    (∀ (doc : List HtmlTable) (base : String) (cfg : FetchConfig),
      fetch_listing doc base {cfg with doc_type := "MINUTES"} =
        fetch_listing doc base {cfg with doc_type := "minutes"}) ∧
    (∀ (base : String) (cfg : FetchConfig) (row : Row),
      ¬ strToLower cfg.doc_type = "minutes" →
      (if strToLower cfg.doc_type = "minutes" then row.tds.getD 2 defaultCell
       else row.tds.getD 1 defaultCell) = row.tds.getD 1 defaultCell) := by
  refine ⟨?_, ?_, ?_⟩
  · intro doc base cfg h
    refine fetch_listing_congr doc base cfg _ rfl (iff_of_false h ?_)
    rw [show ({cfg with doc_type := "agenda"} : FetchConfig).doc_type = "agenda" from rfl]
    decide
  · intro doc base cfg
    refine fetch_listing_congr doc base _ _ rfl (iff_of_true ?_ ?_)
    · rw [show ({cfg with doc_type := "MINUTES"} : FetchConfig).doc_type = "MINUTES" from rfl]
      decide
    · rw [show ({cfg with doc_type := "minutes"} : FetchConfig).doc_type = "minutes" from rfl]
      decide
  · intro base cfg row h
    rw [if_neg h]

/-- Witness for C9: an unrecognized `doc_type` value "bogus" runs exactly
like "agenda" on a concrete listing and selects the second cell. -/
theorem claim_C9_witness :
    fetch_listing
      [⟨[⟨[⟨"Date", []⟩, ⟨"Agenda", []⟩, ⟨"Minutes", []⟩]⟩,
         ⟨[⟨"June 15, 2019", []⟩, ⟨"", ["agenda.pdf"]⟩, ⟨"", ["minutes.pdf"]⟩]⟩]⟩]
      "https://sfbos.org/x" {doc_type := "bogus"} =
    fetch_listing
      [⟨[⟨[⟨"Date", []⟩, ⟨"Agenda", []⟩, ⟨"Minutes", []⟩]⟩,
         ⟨[⟨"June 15, 2019", []⟩, ⟨"", ["agenda.pdf"]⟩, ⟨"", ["minutes.pdf"]⟩]⟩]⟩]
      "https://sfbos.org/x" {doc_type := "agenda"} ∧
    (if strToLower (FetchConfig.doc_type {doc_type := "bogus"}) = "minutes"
     then Row.tds ⟨[⟨"d", []⟩, ⟨"second", []⟩, ⟨"third", []⟩]⟩ |>.getD 2 defaultCell
     else Row.tds ⟨[⟨"d", []⟩, ⟨"second", []⟩, ⟨"third", []⟩]⟩ |>.getD 1 defaultCell) =
      ⟨"second", []⟩ := by
  constructor
  · exact claim_C9.1 _ _ {doc_type := "bogus"} (by decide)
  · rw [claim_C9.2.2 "b" {doc_type := "bogus"} ⟨[⟨"d", []⟩, ⟨"second", []⟩, ⟨"third", []⟩]⟩
      (by decide)]
    decide

/-! ### PDF-acquisition claims -/

theorem download_pdf_hit (url d : String) (net : String → List Nat)
    (fs : List (String × List Nat)) (c : List Nat)
    (h : fsLookup fs (d ++ "/" ++ derivedName url) = some c) :
    download_pdf url d net fs = ⟨d ++ "/" ++ derivedName url, fs, 0⟩ := by
  simp only [download_pdf]
  rw [h]
  rfl

theorem download_pdf_miss (url d : String) (net : String → List Nat)
    (fs : List (String × List Nat))
    (h : fsLookup fs (d ++ "/" ++ derivedName url) = none) :
    download_pdf url d net fs =
      ⟨d ++ "/" ++ derivedName url, (d ++ "/" ++ derivedName url, net url) :: fs, 1⟩ := by
  simp only [download_pdf]
  rw [h]
  rfl

theorem fsLookup_cons_self (p : String) (c : List Nat) (fs : List (String × List Nat)) :
    fsLookup ((p, c) :: fs) p = some c := by
  unfold fsLookup
  rw [List.find?_cons_of_pos]
  · rfl
  · simp

/-- C5: on a fresh destination a `download_pdf` call performs exactly one
network fetch; the immediate second call with the same URL and directory
performs none and returns the same path; and whenever the derived file
already exists, the call returns its path at once with zero fetches. -/
theorem claim_C5 :
    (∀ (url d : String) (net : String → List Nat) (fs : List (String × List Nat)),
      fsLookup fs (d ++ "/" ++ derivedName url) = none →
      (download_pdf url d net fs).fetches = 1 ∧
      (download_pdf url d net (download_pdf url d net fs).fs).fetches = 0 ∧
      (download_pdf url d net (download_pdf url d net fs).fs).path =
        (download_pdf url d net fs).path) ∧
    (∀ (url d : String) (net : String → List Nat) (fs : List (String × List Nat))
      (c : List Nat),
      fsLookup fs (d ++ "/" ++ derivedName url) = some c →
      download_pdf url d net fs = ⟨d ++ "/" ++ derivedName url, fs, 0⟩) := by
  constructor
  · intro url d net fs h
    rw [download_pdf_miss url d net fs h]
    refine ⟨rfl, ?_, ?_⟩
    · rw [download_pdf_hit url d net _ (net url) (fsLookup_cons_self _ _ _)]
    · rw [download_pdf_hit url d net _ (net url) (fsLookup_cons_self _ _ _)]
  · intro url d net fs c h
    exact download_pdf_hit url d net fs c h

/-- Witness for C5: two consecutive calls for one URL on an empty
directory. -/
theorem claim_C5_witness :
    (download_pdf "http://h/a/x.pdf" "/out" (fun _ => [7]) []).fetches = 1 ∧
    (download_pdf "http://h/a/x.pdf" "/out" (fun _ => [7])
      (download_pdf "http://h/a/x.pdf" "/out" (fun _ => [7]) []).fs).fetches = 0 ∧
    (download_pdf "http://h/a/x.pdf" "/out" (fun _ => [7])
      (download_pdf "http://h/a/x.pdf" "/out" (fun _ => [7]) []).fs).path =
      (download_pdf "http://h/a/x.pdf" "/out" (fun _ => [7]) []).path :=
  claim_C5.1 "http://h/a/x.pdf" "/out" (fun _ => [7]) [] (by decide)

/-- C10: the local filename is derived from the substring after the last
`/` of the full URL string (query suffix included), and the existence
check is keyed on that name alone: after downloading one URL, a distinct
URL with the same derived name returns the first URL's path without any
network request. -/
theorem claim_C10 :
    (∀ (u1 u2 d : String) (net : String → List Nat) (fs : List (String × List Nat)),
      u1 ≠ u2 → derivedName u1 = derivedName u2 →
      (download_pdf u2 d net (download_pdf u1 d net fs).fs).path =
        (download_pdf u1 d net fs).path ∧
      (download_pdf u2 d net (download_pdf u1 d net fs).fs).fetches = 0) ∧
    afterLastSlash "http://host/a/x.pdf?v=1" = "x.pdf?v=1" ∧
    derivedName "http://host/a/x.pdf?v=1" = "x.pdf?v=1.pdf" := by
  refine ⟨?_, by decide, by decide⟩
  intro u1 u2 d net fs _ heq
  cases h : fsLookup fs (d ++ "/" ++ derivedName u1) with
  | some c =>
    rw [download_pdf_hit u1 d net fs c h,
        download_pdf_hit u2 d net fs c (by rw [← heq]; exact h)]
    constructor
    · show d ++ "/" ++ derivedName u2 = d ++ "/" ++ derivedName u1
      rw [heq]
    · rfl
  | none =>
    rw [download_pdf_miss u1 d net fs h]
    have h2 : fsLookup ((d ++ "/" ++ derivedName u1, net u1) :: fs)
        (d ++ "/" ++ derivedName u2) = some (net u1) := by
      rw [← heq]
      exact fsLookup_cons_self _ _ _
    rw [download_pdf_hit u2 d net _ (net u1) h2]
    constructor
    · show d ++ "/" ++ derivedName u2 = d ++ "/" ++ derivedName u1
      rw [heq]
    · rfl

/-- Witness for C10: two distinct URLs sharing the derived name
`x.pdf`. -/
theorem claim_C10_witness :
    (download_pdf "http://b.example/files/x.pdf" "/out" (fun _ => [])
      (download_pdf "http://a.example/docs/x.pdf" "/out" (fun _ => []) []).fs).path =
      (download_pdf "http://a.example/docs/x.pdf" "/out" (fun _ => []) []).path ∧
    (download_pdf "http://b.example/files/x.pdf" "/out" (fun _ => [])
      (download_pdf "http://a.example/docs/x.pdf" "/out" (fun _ => []) []).fs).fetches = 0 :=
  claim_C10.1 "http://a.example/docs/x.pdf" "http://b.example/files/x.pdf" "/out"
    (fun _ => []) [] (by decide) (by decide)

/-! ### Metadata-builder claims -/

/-- C6 (amended): `extract_metadata` always returns a record with `sha256`
computed from the file bytes and `file_size` populated; when the
introspection capability is unavailable (import or open fails), both
`page_count` and `extracted.title` are unset; but when the document opens
and a later introspection step raises (empty page list, or a failing
first-page text extraction), `page_count` has already been assigned
`len(pdf.pages)` and stays set, with only the title unset — so the
claim's "page_count unset whenever introspection raises" does not hold. -/
theorem claim_C6 (bytes : List Nat) (u : String) (c : Option String)
    (dt : DocType) (intro : IntroOutcome) (now : PyDateTime) :
    ((extract_metadata bytes u c dt intro now).sha256 = sha256_file bytes ∧
     (extract_metadata bytes u c dt intro now).file_size = some bytes.length) ∧
    (intro = .unavailable →
      (extract_metadata bytes u c dt intro now).page_count = none ∧
      (extract_metadata bytes u c dt intro now).extracted.title = none) ∧
    (∀ pages, intro = .opened pages →
      (extract_metadata bytes u c dt intro now).page_count = some pages.length) ∧
    (∀ pages, intro = .opened (.raises :: pages) →
      (extract_metadata bytes u c dt intro now).extracted.title = none) := by
  refine ⟨⟨rfl, rfl⟩, ?_, ?_, ?_⟩
  · rintro rfl
    exact ⟨rfl, rfl⟩
  · rintro pages rfl
    cases pages with
    | nil => rfl
    | cons p tl => cases p <;> rfl
  · rintro pages rfl
    rfl

/-- Witness for C6: the degraded (capability unavailable) case and the
opened-then-raising case at a concrete file. -/
theorem claim_C6_witness :
    ((extract_metadata [] "file:///tmp/x.pdf" none .minutes .unavailable
        ⟨2024, 1, 1, 0, 0, 0, 0⟩).page_count = none ∧
     (extract_metadata [] "file:///tmp/x.pdf" none .minutes .unavailable
        ⟨2024, 1, 1, 0, 0, 0, 0⟩).extracted.title = none) ∧
    (extract_metadata [] "file:///tmp/x.pdf" none .minutes (.opened [.raises])
        ⟨2024, 1, 1, 0, 0, 0, 0⟩).page_count = some 1 :=
  ⟨(claim_C6 [] "file:///tmp/x.pdf" none .minutes .unavailable
      ⟨2024, 1, 1, 0, 0, 0, 0⟩).2.1 rfl,
   (claim_C6 [] "file:///tmp/x.pdf" none .minutes (.opened [.raises])
      ⟨2024, 1, 1, 0, 0, 0, 0⟩).2.2.1 [.raises] rfl⟩

/-- Counterexample for C6 as stated: a document that opens but whose
first-page text extraction raises.  Introspection did "raise an error",
yet the returned record has `page_count = some 1` (assigned before the
exception), not unset as the claim requires. -/
theorem claim_C6_counterexample :
    (extract_metadata [] "file:///tmp/x.pdf" none .minutes (.opened [.raises])
        ⟨2024, 1, 1, 0, 0, 0, 0⟩).page_count = some 1 ∧
    (extract_metadata [] "file:///tmp/x.pdf" none .minutes (.opened [.raises])
        ⟨2024, 1, 1, 0, 0, 0, 0⟩).extracted.title = none :=
  ⟨rfl, rfl⟩

/-! ### CLI output claims -/

theorem cmd_extract_write_foldl (records : List DocRecord) :
    ∀ acc : String,
      records.foldl (fun a r => a ++ (to_jsonl_line r ++ "\n")) acc =
        acc ++ strConcat (records.map (fun r => to_jsonl_line r ++ "\n")) := by
  induction records with
  | nil =>
    intro acc
    simp only [List.foldl_nil, List.map_nil, strConcat, String.append_empty]
  | cons r rs ih =>
    intro acc
    simp only [List.foldl_cons, List.map_cons, strConcat]
    rw [ih (acc ++ (to_jsonl_line r ++ "\n")), String.append_assoc]

/-- C1 (amended): within one run, `cmd_extract` writes one JSON line per
record, in order — the output file's final content is exactly the
concatenation of the run's lines — but the file is opened in `"w"` mode,
which truncates it, so the content is independent of whatever the file
held before the run; prior content is not preserved. -/
theorem claim_C1 (records : List DocRecord) :
    (∀ prior prior' : String,
      cmd_extract_write prior records = cmd_extract_write prior' records) ∧
    (∀ prior : String,
      cmd_extract_write prior records =
        strConcat (records.map (fun r => to_jsonl_line r ++ "\n"))) := by
  constructor
  · intro prior prior'
    rfl
  · intro prior
    unfold cmd_extract_write
    rw [cmd_extract_write_foldl records "", String.empty_append]

/-- Counterexample for C1 as stated: with prior content "x" and an empty
input directory (no records), the run leaves an empty file — the prior
content is not a prefix of (not preserved in) the output. -/
theorem claim_C1_counterexample :
    cmd_extract_write "x" [] = "" ∧
    strStartsWith (cmd_extract_write "x" []) "x" = false := by
  constructor
  · rfl
  · decide
